import Mathlib

/-!
# JellyDemon: verification of the bandwidth-allocation core

A shallow embedding of the jellydemon daemon's allocation engine:
the per-session usage estimators (`jellydemon.py` and
`modules/bandwidth_manager.py`), the three allocation strategies,
the manager gate and the control loop's budget computation, the
network-origin classifier (`modules/network_utils.py`), and the
log anonymizer (`modules/anonymizer.py`).

Python floats are modelled as rationals (ℚ); all arithmetic appearing
in the claims is exact in binary floating point, so this is faithful
on the inputs considered.  Python dicts are modelled as association
lists in insertion order.
-/

namespace JellyDemon

/-! ## Session data model

A Jellyfin session as consumed by the two estimators.

* `transcodingBitrate = none` models a session whose `TranscodingInfo`
  is absent or an empty (falsy) dict; `some b` models a non-empty
  `TranscodingInfo` whose `Bitrate` field reads as `b` via
  `transcoding_info.get('Bitrate', 0)` (so a present-but-missing
  `Bitrate` key is `some 0`).  Both consumers only inspect truthiness
  of the dict and the effective bitrate, so this collapse is faithful.
* `nowPlaying` models `session.get('NowPlayingItem', {})`: an absent
  item is `⟨none, []⟩` (the empty dict yields the same `.get` results).
-/

structure MediaStream where
  streamType : String
  width : ℚ
  height : ℚ
  deriving Repr, DecidableEq

structure NowPlayingItem where
  bitrate : Option ℚ
  mediaStreams : List MediaStream
  deriving Repr, DecidableEq

structure SessionData where
  transcodingBitrate : Option ℚ
  nowPlaying : NowPlayingItem
  deriving Repr, DecidableEq

/-- First stream whose `Type` is `"Video"`
(the `for stream in media_streams` search in
`DemandBasedAlgorithm._estimate_required_bandwidth`). -/
def findVideoStream : List MediaStream → Option MediaStream
  | [] => none
  | st :: rest => if st.streamType = "Video" then some st else findVideoStream rest

/-- Resolution-tier heuristic and fallbacks of
`DemandBasedAlgorithm._estimate_required_bandwidth` after the
transcoding branch falls through (`bandwidth_manager.py` lines 183-212). -/
def estimateFromMedia (s : SessionData) : ℚ :=
  let mediaBitrate := s.nowPlaying.bitrate.getD 0
  if 0 < mediaBitrate then mediaBitrate / 1000000
  else
    match findVideoStream s.nowPlaying.mediaStreams with
    | some v =>
        if 2160 ≤ v.height then 25
        else if 1080 ≤ v.height then 10
        else if 720 ≤ v.height then 5
        else 3
    | none => 5

/-- `DemandBasedAlgorithm._estimate_required_bandwidth`
(`bandwidth_manager.py` lines 165-212): transcode bitrate if positive,
else declared item bitrate if positive, else resolution tier, else 5.0. -/
def estimateRequiredBandwidth (s : SessionData) : ℚ :=
  match s.transcodingBitrate with
  | some b => if 0 < b then b / 1000000 else estimateFromMedia s
  | none => estimateFromMedia s

/-- Per-session contribution inside
`JellyDemon.get_current_bandwidth_usage` (`jellydemon.py` lines 71-82):
if `TranscodingInfo` is truthy, add its bitrate when positive and
nothing otherwise; else add `NowPlayingItem.get('Bitrate', 5_000_000)`. -/
def loopSessionEstimate (s : SessionData) : ℚ :=
  match s.transcodingBitrate with
  | some b => if 0 < b then b / 1000000 else 0
  | none => (s.nowPlaying.bitrate.getD 5000000) / 1000000

/-- `JellyDemon.get_current_bandwidth_usage` (`jellydemon.py` lines
64-88): accumulate the per-session contribution over the session list. -/
def getCurrentBandwidthUsage (sessions : List SessionData) : ℚ :=
  sessions.foldl (fun total s => total + loopSessionEstimate s) 0

/-! ## Bandwidth configuration and streamers -/

structure BandwidthConfig where
  totalUploadMbps : ℚ
  reservedBandwidth : ℚ
  minPerUser : ℚ
  maxPerUser : ℚ
  deriving Repr, DecidableEq

structure UserPolicy where
  isAdministrator : Bool
  isDisabled : Bool
  enableAllFolders : Bool
  deriving Repr, DecidableEq

/-- One entry of the `external_streamers` dict: the `'user_data'`
(of which only `'Policy'` is consumed) and the `'session_data'`. -/
structure Streamer where
  policy : UserPolicy
  sessionData : SessionData
  deriving Repr, DecidableEq

abbrev Streamers := List (String × Streamer)

/-- `EqualSplitAlgorithm.calculate_limits` (`bandwidth_manager.py`
lines 36-49). -/
def equalSplitCalculateLimits (streamers : Streamers)
    (availableBandwidth : ℚ) (config : BandwidthConfig) :
    List (String × ℚ) :=
  if streamers.isEmpty ∨ availableBandwidth ≤ 0 then []
  else
    let numUsers : ℚ := streamers.length
    let perUser := availableBandwidth / numUsers
    let perUser := max config.minPerUser perUser
    let perUser := min config.maxPerUser perUser
    streamers.map (fun p => (p.1, perUser))

/-- The clamping expression `max(config.min_per_user,
min(config.max_per_user, limit))` shared by the priority-based and
demand-based algorithms. -/
def clampLimit (config : BandwidthConfig) (limit : ℚ) : ℚ :=
  max config.minPerUser (min config.maxPerUser limit)

/-- The admin-tier test: `policy.get('IsAdministrator', False)`. -/
def isAdminStreamer (st : Streamer) : Bool :=
  st.policy.isAdministrator

/-- The premium-tier test evaluated in the `elif`:
`policy.get('IsDisabled', False) is False and
policy.get('EnableAllFolders', False)`. -/
def isPremiumStreamer (st : Streamer) : Bool :=
  !st.policy.isDisabled && st.policy.enableAllFolders

/-- The tier weight of a streamer under the priority-based partition
order (admin 3, else premium 2, else regular 1). -/
def tierWeight (st : Streamer) : ℚ :=
  if isAdminStreamer st then 3 else if isPremiumStreamer st then 2 else 1

/-- `PriorityBasedAlgorithm.calculate_limits` (`bandwidth_manager.py`
lines 55-117).  The single pass appending each user to exactly one of
the three tier lists is rendered as three order-preserving filters. -/
def priorityBasedCalculateLimits (streamers : Streamers)
    (availableBandwidth : ℚ) (config : BandwidthConfig) :
    List (String × ℚ) :=
  if streamers.isEmpty ∨ availableBandwidth ≤ 0 then []
  else
    let adminUsers := streamers.filter fun p => isAdminStreamer p.2
    let premiumUsers := streamers.filter fun p =>
      !isAdminStreamer p.2 && isPremiumStreamer p.2
    let regularUsers := streamers.filter fun p =>
      !isAdminStreamer p.2 && !isPremiumStreamer p.2
    let totalWeight : ℚ :=
      (adminUsers.length : ℚ) * 3 + (premiumUsers.length : ℚ) * 2 +
        (regularUsers.length : ℚ) * 1
    if totalWeight = 0 then []
    else
      let bandwidthPerUnit := availableBandwidth / totalWeight
      adminUsers.map (fun p => (p.1, clampLimit config (bandwidthPerUnit * 3)))
        ++ premiumUsers.map (fun p => (p.1, clampLimit config (bandwidthPerUnit * 2)))
        ++ regularUsers.map (fun p => (p.1, clampLimit config (bandwidthPerUnit * 1)))

/-- `DemandBasedAlgorithm.calculate_limits` (`bandwidth_manager.py`
lines 123-163). -/
def demandBasedCalculateLimits (streamers : Streamers)
    (availableBandwidth : ℚ) (config : BandwidthConfig) :
    List (String × ℚ) :=
  if streamers.isEmpty ∨ availableBandwidth ≤ 0 then []
  else
    let userDemands := streamers.map fun p =>
      (p.1, estimateRequiredBandwidth p.2.sessionData)
    let totalDemand := (userDemands.map Prod.snd).sum
    if totalDemand ≤ availableBandwidth then
      userDemands.map fun p => (p.1, clampLimit config p.2)
    else
      let scaleFactor := availableBandwidth / totalDemand
      userDemands.map fun p => (p.1, clampLimit config (p.2 * scaleFactor))

/-- `BandwidthManager.calculate_limits` (`bandwidth_manager.py` lines
242-275), with the configured strategy abstracted as a function
argument: if the available bandwidth is below `min_per_user` the
manager returns the empty mapping without invoking the strategy. -/
def managerCalculateLimits
    (strategy : Streamers → ℚ → BandwidthConfig → List (String × ℚ))
    (config : BandwidthConfig) (streamers : Streamers)
    (availableBandwidth : ℚ) : List (String × ℚ) :=
  if availableBandwidth < config.minPerUser then []
  else strategy streamers availableBandwidth config

/-- The budget computation of `JellyDemon.calculate_and_apply_limits`
(`jellydemon.py` lines 130-137): `available = total - usage - reserved`,
replaced by `min_per_user * len(external_streamers)` when negative. -/
def controlLoopAvailable (config : BandwidthConfig) (currentUsage : ℚ)
    (numStreamers : ℕ) : ℚ :=
  let availableBandwidth :=
    config.totalUploadMbps - currentUsage - config.reservedBandwidth
  if availableBandwidth < 0 then config.minPerUser * numStreamers
  else availableBandwidth

/-- `JellyDemon.calculate_and_apply_limits` up to the point where the
per-user limits have been computed (`jellydemon.py` lines 121-146):
early return on no external streamers, budget computation with the
negative-budget fallback, then the manager (hence the strategy). -/
def calculateAndApplyLimits
    (strategy : Streamers → ℚ → BandwidthConfig → List (String × ℚ))
    (config : BandwidthConfig) (streamers : Streamers)
    (currentUsage : ℚ) : List (String × ℚ) :=
  if streamers.isEmpty then []
  else
    managerCalculateLimits strategy config streamers
      (controlLoopAvailable config currentUsage streamers.length)

/-! ## Network classifier (`modules/network_utils.py`)

The standard library's `ipaddress` module is external to the
repository; parsed addresses are abstracted as an arbitrary type `α`
and each parsed CIDR network as its membership test `α → Bool`.  A
malformed input string — one on which `ipaddress.ip_address` raises
`ValueError` — is modelled by `parsedIp = none`. -/

/-- The body of the `try` block of `NetworkUtils.is_external_ip`
(`network_utils.py` lines 53-71) on a successfully parsed address:
in test mode with a non-empty parsed test-range list, external iff
some test range matches; otherwise external iff no internal range
matches. -/
def isExternalIpCore {α : Type} (testMode : Bool)
    (testNets internalNets : List (α → Bool)) (ip : α) : Bool :=
  if testMode && !testNets.isEmpty then
    testNets.any fun net => net ip
  else
    !(internalNets.any fun net => net ip)

/-- `NetworkUtils.is_external_ip` (`network_utils.py` lines 42-75).
The `except ValueError` handler logs the error locally and returns
`False`; the function itself never lets an exception reach the caller,
so the result is always `Except.ok`. -/
def isExternalIp {α : Type} (testMode : Bool)
    (testNets internalNets : List (α → Bool)) (parsedIp : Option α) :
    Except String Bool :=
  match parsedIp with
  | none => Except.ok false
  | some ip => Except.ok (isExternalIpCore testMode testNets internalNets ip)

/-! ## Log anonymizer (`modules/anonymizer.py`)

Decimal rendering of counters: `decChar`/`natRepr` embed Python's
`str(n)` for a natural number, `padTo3` the `:03d` format padding. -/

/-- The decimal digit character for `d` (`'0'` for 0, ..., `'9'` for 9). -/
def decChar (d : ℕ) : Char := Char.ofNat (48 + d)

/-- Python's `str(n)` for a natural number: decimal digits,
most significant first. -/
def natRepr (n : ℕ) : List Char :=
  if n = 0 then ['0'] else (Nat.digits 10 n).reverse.map decChar

/-- The `:03d` format: left-pad with `'0'` to width 3. -/
def padTo3 (cs : List Char) : List Char :=
  List.replicate (3 - cs.length) '0' ++ cs

/-- Numeric value of a digit character. -/
def decDigitVal (c : Char) : ℕ := c.toNat - 48

/-- Accumulator pass of the decimal decoder. -/
def decodeDecAux (acc : ℕ) : List Char → ℕ
  | [] => acc
  | c :: cs => decodeDecAux (acc * 10 + decDigitVal c) cs

/-- Decimal decoder, the left inverse of rendering used to prove
alias injectivity. -/
def decodeDec (cs : List Char) : ℕ := decodeDecAux 0 cs

/-- An f-string `f"{pre}{c:03d}"` such as `f"User-{c:03d}"`. -/
def renderCounter3 (pre : String) (c : ℕ) : String :=
  ⟨pre.data ++ padTo3 (natRepr c)⟩

/-- An f-string `f"{pre}{c}"` such as `f"192.168.xxx.{c}"`. -/
def renderCounterPlain (pre : String) (c : ℕ) : String :=
  ⟨pre.data ++ natRepr c⟩

/-- The branch of `LogAnonymizer.anonymize_ip` selected for a given
input string (`anonymizer.py` lines 68-96): the outcome of
`ipaddress.ip_address` parsing, `is_private` / `version`, and the
first one or two dot-separated parts.  The standard library's
`ipaddress` is external to the repository, so the branch selector is
abstracted as a function `String → IpClass` supplied by the caller. -/
inductive IpClass
  | invalid
  | priv192
  | priv10
  | priv172
  | privOther4
  | priv6
  | publicAddr
  deriving Repr, DecidableEq

/-- Whether the branch increments `ip_counter` (public or invalid
addresses) rather than using `len(self.ip_map) + 1` (private ones). -/
def ipClassUsesCounter : IpClass → Bool
  | .publicAddr => true
  | .invalid => true
  | _ => false

/-- The alias string built in the branch for index `n`
(`len(ip_map)+1` for private classes, the incremented `ip_counter`
for public/invalid). -/
def ipAliasString : IpClass → ℕ → String
  | .priv192, n => renderCounterPlain "192.168.xxx." n
  | .priv10, n => renderCounterPlain "10.xxx.xxx." n
  | .priv172, n => renderCounterPlain "172.16.xxx." n
  | .privOther4, n => renderCounterPlain "Private-IP-" n
  | .priv6, n => renderCounterPlain "Private-IPv6-" n
  | .publicAddr, n => renderCounter3 "External-IP-" n
  | .invalid, n => renderCounter3 "IP-" n

/-- The mutable state of `LogAnonymizer` (`anonymizer.py` lines
15-23): the enabled flag, the three alias maps in insertion order, and
the three counters. -/
structure AnonState where
  enabled : Bool
  usernameMap : List (String × String)
  ipMap : List (String × String)
  sessionMap : List (String × String)
  userCounter : ℕ
  ipCounter : ℕ
  sessionCounter : ℕ
  deriving Repr, DecidableEq

/-- `LogAnonymizer.__init__`: empty maps, zero counters. -/
def initAnonState (enabled : Bool) : AnonState :=
  ⟨enabled, [], [], [], 0, 0, 0⟩

/-- `LogAnonymizer.anonymize_username` (`anonymizer.py` lines 51-60),
returning the alias and the updated state. -/
def anonymizeUsername (st : AnonState) (username : String) :
    String × AnonState :=
  if st.enabled = false ∨ username = "" then (username, st)
  else
    match st.usernameMap.lookup username with
    | some a => (a, st)
    | none =>
        let c := st.userCounter + 1
        let a := renderCounter3 "User-" c
        (a, { st with userCounter := c,
                      usernameMap := st.usernameMap ++ [(username, a)] })

/-- `LogAnonymizer.anonymize_ip` (`anonymizer.py` lines 62-98):
private addresses are labelled with `len(self.ip_map) + 1`, public and
unparseable ones with the incremented `ip_counter`. -/
def anonymizeIp (classify : String → IpClass) (st : AnonState)
    (ipStr : String) : String × AnonState :=
  if st.enabled = false ∨ ipStr = "" then (ipStr, st)
  else
    match st.ipMap.lookup ipStr with
    | some a => (a, st)
    | none =>
        let cls := classify ipStr
        if ipClassUsesCounter cls then
          let c := st.ipCounter + 1
          let a := ipAliasString cls c
          (a, { st with ipCounter := c, ipMap := st.ipMap ++ [(ipStr, a)] })
        else
          let a := ipAliasString cls (st.ipMap.length + 1)
          (a, { st with ipMap := st.ipMap ++ [(ipStr, a)] })

/-- `LogAnonymizer.anonymize_session` (`anonymizer.py` lines 100-109). -/
def anonymizeSession (st : AnonState) (sessionId : String) :
    String × AnonState :=
  if st.enabled = false ∨ sessionId = "" then (sessionId, st)
  else
    match st.sessionMap.lookup sessionId with
    | some a => (a, st)
    | none =>
        let c := st.sessionCounter + 1
        let a := renderCounter3 "Session-" c
        (a, { st with sessionCounter := c,
                      sessionMap := st.sessionMap ++ [(sessionId, a)] })

/-- One call into the anonymizer during the process lifetime. -/
inductive AnonOp
  | username (v : String)
  | ip (v : String)
  | session (v : String)
  deriving Repr, DecidableEq

/-- State effect of one anonymizer call. -/
def applyAnonOp (classify : String → IpClass) (st : AnonState) :
    AnonOp → AnonState
  | .username v => (anonymizeUsername st v).2
  | .ip v => (anonymizeIp classify st v).2
  | .session v => (anonymizeSession st v).2

/-- A sequence of anonymizer calls. -/
def runAnonOps (classify : String → IpClass) (st : AnonState) :
    List AnonOp → AnonState
  | [] => st
  | op :: ops => runAnonOps classify (applyAnonOp classify st op) ops

/-- Prefix-stripping helper for decoding alias strings. -/
def stripPrefixChars (pre s : List Char) : Option (List Char) :=
  if pre.isPrefixOf s then some (s.drop pre.length) else none

/-- Decoder of IP alias strings back to their branch and index; a left
inverse of `ipAliasString` witnessing its injectivity. -/
def decodeIpAlias (s : String) : Option (IpClass × ℕ) :=
  match stripPrefixChars "192.168.xxx.".data s.data with
  | some rest => some (IpClass.priv192, decodeDec rest)
  | none =>
  match stripPrefixChars "10.xxx.xxx.".data s.data with
  | some rest => some (IpClass.priv10, decodeDec rest)
  | none =>
  match stripPrefixChars "172.16.xxx.".data s.data with
  | some rest => some (IpClass.priv172, decodeDec rest)
  | none =>
  match stripPrefixChars "Private-IPv6-".data s.data with
  | some rest => some (IpClass.priv6, decodeDec rest)
  | none =>
  match stripPrefixChars "Private-IP-".data s.data with
  | some rest => some (IpClass.privOther4, decodeDec rest)
  | none =>
  match stripPrefixChars "External-IP-".data s.data with
  | some rest => some (IpClass.publicAddr, decodeDec rest)
  | none =>
  match stripPrefixChars "IP-".data s.data with
  | some rest => some (IpClass.invalid, decodeDec rest)
  | none => none

/-- A regular-user streamer fixture (no flags, empty session) used in
concrete instances. -/
def sampleStreamer : Streamer := ⟨⟨false, false, false⟩, ⟨none, ⟨none, []⟩⟩⟩

/-- An administrator streamer fixture used in concrete instances. -/
def adminStreamer : Streamer := ⟨⟨true, false, false⟩, ⟨none, ⟨none, []⟩⟩⟩

/-- A streamer fixture whose session transcodes at 20 Mbps
(`TranscodingInfo.Bitrate = 20_000_000`). -/
def transcode20Streamer : Streamer :=
  ⟨⟨false, false, false⟩, ⟨some 20000000, ⟨none, []⟩⟩⟩

/-- A session whose `TranscodingInfo` dict is non-empty but carries no
positive `Bitrate` (e.g. a just-started transcode), with no playing
item metadata. -/
def stalledTranscodeSession : SessionData := ⟨some 0, ⟨none, []⟩⟩

end JellyDemon

namespace JellyDemon

/-! ### Decoding lemmas: counter rendering is injective -/

theorem decodeDecAux_nil (acc : ℕ) : decodeDecAux acc [] = acc := rfl

theorem decodeDecAux_cons (acc : ℕ) (c : Char) (cs : List Char) :
    decodeDecAux acc (c :: cs) =
      decodeDecAux (acc * 10 + decDigitVal c) cs := rfl

theorem decDigitVal_decChar : ∀ d < 10, decDigitVal (decChar d) = d := by
  decide

theorem decodeDecAux_map (bs : List ℕ) : ∀ acc : ℕ, (∀ d ∈ bs, d < 10) →
    decodeDecAux acc (bs.map decChar) =
      acc * 10 ^ bs.length + Nat.ofDigits 10 bs.reverse := by
  induction bs with
  | nil =>
      intro acc _
      simp [decodeDecAux_nil, Nat.ofDigits_nil]
  | cons d bs ih =>
      intro acc h
      have hd : decDigitVal (decChar d) = d :=
        decDigitVal_decChar d (h d (by simp))
      have ih2 := ih (acc * 10 + d) (fun x hx => h x (by simp [hx]))
      simp only [List.map_cons, decodeDecAux_cons, hd, ih2, List.reverse_cons,
        Nat.ofDigits_append, Nat.ofDigits_singleton, List.length_cons,
        List.length_reverse]
      ring

theorem decodeDec_natRepr (n : ℕ) : decodeDec (natRepr n) = n := by
  by_cases h : n = 0
  · subst h; decide
  · unfold natRepr decodeDec
    rw [if_neg h]
    rw [decodeDecAux_map _ _
      (fun d hd => Nat.digits_lt_base (by norm_num) (List.mem_reverse.mp hd))]
    simp [Nat.ofDigits_digits]

theorem decodeDecAux_replicate_zero :
    ∀ (k : ℕ) (cs : List Char),
      decodeDecAux 0 (List.replicate k '0' ++ cs) = decodeDecAux 0 cs
  | 0, cs => by simp
  | k + 1, cs => by
      have h0 : decDigitVal '0' = 0 := by decide
      simp only [List.replicate_succ, List.cons_append, decodeDecAux_cons, h0]
      simpa using decodeDecAux_replicate_zero k cs

theorem decodeDec_padTo3 (cs : List Char) :
    decodeDec (padTo3 cs) = decodeDec cs := by
  unfold padTo3 decodeDec
  exact decodeDecAux_replicate_zero _ _

theorem renderCounter3_inj (pre : String) {a b : ℕ}
    (h : renderCounter3 pre a = renderCounter3 pre b) : a = b := by
  have hd : pre.data ++ padTo3 (natRepr a) = pre.data ++ padTo3 (natRepr b) :=
    congrArg String.data h
  have h2 := List.append_cancel_left hd
  have h3 := congrArg decodeDec h2
  rwa [decodeDec_padTo3, decodeDec_padTo3, decodeDec_natRepr,
    decodeDec_natRepr] at h3

theorem renderCounterPlain_inj (pre : String) {a b : ℕ}
    (h : renderCounterPlain pre a = renderCounterPlain pre b) : a = b := by
  have hd : pre.data ++ natRepr a = pre.data ++ natRepr b :=
    congrArg String.data h
  have h2 := List.append_cancel_left hd
  have h3 := congrArg decodeDec h2
  rwa [decodeDec_natRepr, decodeDec_natRepr] at h3

theorem stripPrefixChars_self (pre rest : List Char) :
    stripPrefixChars pre (pre ++ rest) = some rest := by
  have hp : pre.isPrefixOf (pre ++ rest) = true := by
    rw [List.isPrefixOf_iff_prefix]; exact List.prefix_append _ _
  simp [stripPrefixChars, hp]

theorem stripPrefixChars_mismatch (pre1 pre2 rest : List Char) (k : ℕ)
    (h1 : k < pre1.length) (h2 : k < pre2.length)
    (hne : pre1.get ⟨k, h1⟩ ≠ pre2.get ⟨k, h2⟩) :
    stripPrefixChars pre1 (pre2 ++ rest) = none := by
  have hp : pre1.isPrefixOf (pre2 ++ rest) = false := by
    rw [Bool.eq_false_iff]
    intro hc
    rw [List.isPrefixOf_iff_prefix] at hc
    have hget := hc.getElem h1
    rw [List.getElem_append_left h2] at hget
    exact hne (by simpa [List.get_eq_getElem] using hget)
  simp [stripPrefixChars, hp]

theorem mk_data (l : List Char) : (String.mk l).data = l := rfl

theorem decodeIpAlias_render (c : IpClass) (i : ℕ) :
    decodeIpAlias (ipAliasString c i) = some (c, i) := by
  cases c with
  | priv192 =>
      simp only [decodeIpAlias, ipAliasString, renderCounterPlain, mk_data,
        stripPrefixChars_self, decodeDec_natRepr]
  | priv10 =>
      have e1 := stripPrefixChars_mismatch "192.168.xxx.".data
        "10.xxx.xxx.".data (natRepr i) 1 (by decide) (by decide) (by decide)
      simp only [decodeIpAlias, ipAliasString, renderCounterPlain, mk_data,
        e1, stripPrefixChars_self, decodeDec_natRepr]
  | priv172 =>
      have e1 := stripPrefixChars_mismatch "192.168.xxx.".data
        "172.16.xxx.".data (natRepr i) 1 (by decide) (by decide) (by decide)
      have e2 := stripPrefixChars_mismatch "10.xxx.xxx.".data
        "172.16.xxx.".data (natRepr i) 1 (by decide) (by decide) (by decide)
      simp only [decodeIpAlias, ipAliasString, renderCounterPlain, mk_data,
        e1, e2, stripPrefixChars_self, decodeDec_natRepr]
  | priv6 =>
      have e1 := stripPrefixChars_mismatch "192.168.xxx.".data
        "Private-IPv6-".data (natRepr i) 0 (by decide) (by decide) (by decide)
      have e2 := stripPrefixChars_mismatch "10.xxx.xxx.".data
        "Private-IPv6-".data (natRepr i) 0 (by decide) (by decide) (by decide)
      have e3 := stripPrefixChars_mismatch "172.16.xxx.".data
        "Private-IPv6-".data (natRepr i) 0 (by decide) (by decide) (by decide)
      simp only [decodeIpAlias, ipAliasString, renderCounterPlain, mk_data,
        e1, e2, e3, stripPrefixChars_self, decodeDec_natRepr]
  | privOther4 =>
      have e1 := stripPrefixChars_mismatch "192.168.xxx.".data
        "Private-IP-".data (natRepr i) 0 (by decide) (by decide) (by decide)
      have e2 := stripPrefixChars_mismatch "10.xxx.xxx.".data
        "Private-IP-".data (natRepr i) 0 (by decide) (by decide) (by decide)
      have e3 := stripPrefixChars_mismatch "172.16.xxx.".data
        "Private-IP-".data (natRepr i) 0 (by decide) (by decide) (by decide)
      have e4 := stripPrefixChars_mismatch "Private-IPv6-".data
        "Private-IP-".data (natRepr i) 10 (by decide) (by decide) (by decide)
      simp only [decodeIpAlias, ipAliasString, renderCounterPlain, mk_data,
        e1, e2, e3, e4, stripPrefixChars_self, decodeDec_natRepr]
  | publicAddr =>
      have e1 := stripPrefixChars_mismatch "192.168.xxx.".data
        "External-IP-".data (padTo3 (natRepr i)) 0
        (by decide) (by decide) (by decide)
      have e2 := stripPrefixChars_mismatch "10.xxx.xxx.".data
        "External-IP-".data (padTo3 (natRepr i)) 0
        (by decide) (by decide) (by decide)
      have e3 := stripPrefixChars_mismatch "172.16.xxx.".data
        "External-IP-".data (padTo3 (natRepr i)) 0
        (by decide) (by decide) (by decide)
      have e4 := stripPrefixChars_mismatch "Private-IPv6-".data
        "External-IP-".data (padTo3 (natRepr i)) 0
        (by decide) (by decide) (by decide)
      have e5 := stripPrefixChars_mismatch "Private-IP-".data
        "External-IP-".data (padTo3 (natRepr i)) 0
        (by decide) (by decide) (by decide)
      simp only [decodeIpAlias, ipAliasString, renderCounter3, mk_data,
        e1, e2, e3, e4, e5, stripPrefixChars_self, decodeDec_padTo3,
        decodeDec_natRepr]
  | invalid =>
      have e1 := stripPrefixChars_mismatch "192.168.xxx.".data
        "IP-".data (padTo3 (natRepr i)) 0 (by decide) (by decide) (by decide)
      have e2 := stripPrefixChars_mismatch "10.xxx.xxx.".data
        "IP-".data (padTo3 (natRepr i)) 0 (by decide) (by decide) (by decide)
      have e3 := stripPrefixChars_mismatch "172.16.xxx.".data
        "IP-".data (padTo3 (natRepr i)) 0 (by decide) (by decide) (by decide)
      have e4 := stripPrefixChars_mismatch "Private-IPv6-".data
        "IP-".data (padTo3 (natRepr i)) 0 (by decide) (by decide) (by decide)
      have e5 := stripPrefixChars_mismatch "Private-IP-".data
        "IP-".data (padTo3 (natRepr i)) 0 (by decide) (by decide) (by decide)
      have e6 := stripPrefixChars_mismatch "External-IP-".data
        "IP-".data (padTo3 (natRepr i)) 0 (by decide) (by decide) (by decide)
      simp only [decodeIpAlias, ipAliasString, renderCounter3, mk_data,
        e1, e2, e3, e4, e5, e6, stripPrefixChars_self, decodeDec_padTo3,
        decodeDec_natRepr]

theorem ipAliasString_inj {c1 c2 : IpClass} {i1 i2 : ℕ}
    (h : ipAliasString c1 i1 = ipAliasString c2 i2) : c1 = c2 ∧ i1 = i2 := by
  have h' := congrArg decodeIpAlias h
  rw [decodeIpAlias_render, decodeIpAlias_render] at h'
  simpa using h'

theorem renderCounter3_ne_of_lt (pre : String) {a b : ℕ} (h : a < b) :
    renderCounter3 pre b ≠ renderCounter3 pre a := fun hc =>
  absurd (renderCounter3_inj pre hc) (Nat.ne_of_gt h)

/-! ### Association-list lemmas -/

theorem lookup_append_of_none {l : List (String × String)} (v a : String)
    (h : l.lookup v = none) : (l ++ [(v, a)]).lookup v = some a := by
  induction l with
  | nil => simp [List.lookup]
  | cons q t ih =>
      cases q with
      | mk k b =>
          cases hvk : (v == k) with
          | true => simp [List.lookup, hvk] at h
          | false =>
              simp only [List.lookup, hvk] at h
              simpa [List.lookup, hvk] using ih h

theorem map_snd_nodup_inj {α β : Type} {l : List (α × β)}
    (h : (l.map Prod.snd).Nodup) :
    ∀ q1 ∈ l, ∀ q2 ∈ l, q1.2 = q2.2 → q1 = q2 := by
  induction l with
  | nil => simp
  | cons x t ih =>
      simp only [List.map_cons, List.nodup_cons] at h
      obtain ⟨hx, ht⟩ := h
      intro q1 h1 q2 h2 heq
      rcases List.mem_cons.mp h1 with h1x | h1t
      · rcases List.mem_cons.mp h2 with h2x | h2t
        · rw [h1x, h2x]
        · exfalso
          apply hx
          rw [h1x] at heq
          rw [heq]
          exact List.mem_map_of_mem Prod.snd h2t
      · rcases List.mem_cons.mp h2 with h2x | h2t
        · exfalso
          apply hx
          rw [h2x] at heq
          rw [← heq]
          exact List.mem_map_of_mem Prod.snd h1t
        · exact ih ht q1 h1t q2 h2t heq

/-! ### Anonymizer state invariant -/

/-- Reachable-state invariant of the anonymizer: every stored username
alias is `User-NNN` for an index between 1 and the counter, likewise
for sessions; every stored IP alias is the branch alias for an index
bounded by the counter (public/invalid) or the map length (private);
and each map's aliases are pairwise distinct. -/
structure AnonInv (st : AnonState) : Prop where
  userVals : ∀ q ∈ st.usernameMap, ∃ i, 1 ≤ i ∧ i ≤ st.userCounter ∧
    q.2 = renderCounter3 "User-" i
  userNodup : (st.usernameMap.map Prod.snd).Nodup
  sessionVals : ∀ q ∈ st.sessionMap, ∃ i, 1 ≤ i ∧ i ≤ st.sessionCounter ∧
    q.2 = renderCounter3 "Session-" i
  sessionNodup : (st.sessionMap.map Prod.snd).Nodup
  ipVals : ∀ q ∈ st.ipMap, ∃ cls i, 1 ≤ i ∧ q.2 = ipAliasString cls i ∧
    (ipClassUsesCounter cls = true → i ≤ st.ipCounter) ∧
    (ipClassUsesCounter cls = false → i ≤ st.ipMap.length)
  ipNodup : (st.ipMap.map Prod.snd).Nodup

theorem anonInv_init (e : Bool) : AnonInv (initAnonState e) := by
  constructor <;> simp [initAnonState]

theorem anonInv_username (st : AnonState) (v : String) (h : AnonInv st) :
    AnonInv (anonymizeUsername st v).2 := by
  cases hen : st.enabled with
  | false => simpa [anonymizeUsername, hen] using h
  | true =>
      by_cases hv : v = ""
      · simpa [anonymizeUsername, hv] using h
      · rcases hl : st.usernameMap.lookup v with _ | a
        · -- fresh insertion
          have hstep : (anonymizeUsername st v).2 =
              { st with userCounter := st.userCounter + 1,
                        usernameMap := st.usernameMap ++
                          [(v, renderCounter3 "User-" (st.userCounter + 1))] } := by
            simp [anonymizeUsername, hen, hv, hl]
          rw [hstep]
          refine ⟨?_, ?_, ?_, ?_, ?_, ?_⟩
          · intro q hq
            rcases List.mem_append.mp hq with hq' | hq'
            · obtain ⟨i, hi1, hi2, hi3⟩ := h.userVals q hq'
              exact ⟨i, hi1, by show i ≤ st.userCounter + 1; omega, hi3⟩
            · rcases List.mem_singleton.mp hq' with rfl
              exact ⟨st.userCounter + 1, by omega, le_refl _, rfl⟩
          · rw [List.map_append, List.nodup_append]
            refine ⟨h.userNodup, by simp, ?_⟩
            intro x hx hx'
            obtain ⟨q, hq, rfl⟩ := List.mem_map.mp hx
            obtain ⟨i, hi1, hi2, hi3⟩ := h.userVals q hq
            simp only [List.map_cons, List.map_nil, List.mem_singleton] at hx'
            exact renderCounter3_ne_of_lt "User-" (by omega) (hx' ▸ hi3.symm).symm
          · exact h.sessionVals
          · exact h.sessionNodup
          · exact h.ipVals
          · exact h.ipNodup
        · simpa [anonymizeUsername, hen, hv, hl] using h

theorem anonInv_session (st : AnonState) (v : String) (h : AnonInv st) :
    AnonInv (anonymizeSession st v).2 := by
  cases hen : st.enabled with
  | false => simpa [anonymizeSession, hen] using h
  | true =>
      by_cases hv : v = ""
      · simpa [anonymizeSession, hv] using h
      · rcases hl : st.sessionMap.lookup v with _ | a
        · have hstep : (anonymizeSession st v).2 =
              { st with sessionCounter := st.sessionCounter + 1,
                        sessionMap := st.sessionMap ++
                          [(v, renderCounter3 "Session-" (st.sessionCounter + 1))] } := by
            simp [anonymizeSession, hen, hv, hl]
          rw [hstep]
          refine ⟨?_, ?_, ?_, ?_, ?_, ?_⟩
          · exact h.userVals
          · exact h.userNodup
          · intro q hq
            rcases List.mem_append.mp hq with hq' | hq'
            · obtain ⟨i, hi1, hi2, hi3⟩ := h.sessionVals q hq'
              exact ⟨i, hi1, by show i ≤ st.sessionCounter + 1; omega, hi3⟩
            · rcases List.mem_singleton.mp hq' with rfl
              exact ⟨st.sessionCounter + 1, by omega, le_refl _, rfl⟩
          · rw [List.map_append, List.nodup_append]
            refine ⟨h.sessionNodup, by simp, ?_⟩
            intro x hx hx'
            obtain ⟨q, hq, rfl⟩ := List.mem_map.mp hx
            obtain ⟨i, hi1, hi2, hi3⟩ := h.sessionVals q hq
            simp only [List.map_cons, List.map_nil, List.mem_singleton] at hx'
            exact renderCounter3_ne_of_lt "Session-" (by omega)
              (hx' ▸ hi3.symm).symm
          · exact h.ipVals
          · exact h.ipNodup
        · simpa [anonymizeSession, hen, hv, hl] using h

theorem anonInv_ip (classify : String → IpClass) (st : AnonState) (v : String)
    (h : AnonInv st) : AnonInv (anonymizeIp classify st v).2 := by
  cases hen : st.enabled with
  | false => simpa [anonymizeIp, hen] using h
  | true =>
      by_cases hv : v = ""
      · simpa [anonymizeIp, hv] using h
      · rcases hl : st.ipMap.lookup v with _ | a
        · by_cases hc : ipClassUsesCounter (classify v) = true
          · -- public / invalid: the ip counter is incremented
            have hstep : (anonymizeIp classify st v).2 =
                { st with ipCounter := st.ipCounter + 1,
                          ipMap := st.ipMap ++
                            [(v, ipAliasString (classify v) (st.ipCounter + 1))] } := by
              simp [anonymizeIp, hen, hv, hl, hc]
            rw [hstep]
            refine ⟨h.userVals, h.userNodup, h.sessionVals, h.sessionNodup,
              ?_, ?_⟩
            · intro q hq
              rcases List.mem_append.mp hq with hq' | hq'
              · obtain ⟨cls, i, hi1, hi2, hi3, hi4⟩ := h.ipVals q hq'
                refine ⟨cls, i, hi1, hi2, ?_, ?_⟩
                · intro hu
                  have := hi3 hu
                  show i ≤ st.ipCounter + 1
                  omega
                · intro hu
                  have := hi4 hu
                  simp only [List.length_append, List.length_cons,
                    List.length_nil]
                  omega
              · rcases List.mem_singleton.mp hq' with rfl
                refine ⟨classify v, st.ipCounter + 1, by omega, rfl,
                  fun _ => le_refl _, fun hfalse => ?_⟩
                rw [hc] at hfalse
                exact absurd hfalse (by decide)
            · rw [List.map_append, List.nodup_append]
              refine ⟨h.ipNodup, by simp, ?_⟩
              intro x hx hx'
              obtain ⟨q, hq, rfl⟩ := List.mem_map.mp hx
              obtain ⟨cls, i, hi1, hi2, hi3, hi4⟩ := h.ipVals q hq
              simp only [List.map_cons, List.map_nil,
                List.mem_singleton] at hx'
              obtain ⟨hcls, hidx⟩ := ipAliasString_inj (hi2.symm.trans hx')
              subst hcls
              have := hi3 hc
              omega
          · -- private: indexed by the map length
            have hcf : ipClassUsesCounter (classify v) = false :=
              Bool.eq_false_iff.mpr hc
            have hstep : (anonymizeIp classify st v).2 =
                { st with ipMap := st.ipMap ++
                    [(v, ipAliasString (classify v) (st.ipMap.length + 1))] } := by
              simp [anonymizeIp, hen, hv, hl, hcf]
            rw [hstep]
            refine ⟨h.userVals, h.userNodup, h.sessionVals, h.sessionNodup,
              ?_, ?_⟩
            · intro q hq
              rcases List.mem_append.mp hq with hq' | hq'
              · obtain ⟨cls, i, hi1, hi2, hi3, hi4⟩ := h.ipVals q hq'
                refine ⟨cls, i, hi1, hi2, fun hu => hi3 hu, ?_⟩
                intro hu
                have := hi4 hu
                simp only [List.length_append, List.length_cons,
                  List.length_nil]
                omega
              · rcases List.mem_singleton.mp hq' with rfl
                refine ⟨classify v, st.ipMap.length + 1, by omega, rfl,
                  fun htrue => ?_, fun _ => ?_⟩
                · rw [hcf] at htrue
                  exact absurd htrue (by decide)
                · simp only [List.length_append, List.length_cons,
                    List.length_nil]
                  omega
            · rw [List.map_append, List.nodup_append]
              refine ⟨h.ipNodup, by simp, ?_⟩
              intro x hx hx'
              obtain ⟨q, hq, rfl⟩ := List.mem_map.mp hx
              obtain ⟨cls, i, hi1, hi2, hi3, hi4⟩ := h.ipVals q hq
              simp only [List.map_cons, List.map_nil,
                List.mem_singleton] at hx'
              obtain ⟨hcls, hidx⟩ := ipAliasString_inj (hi2.symm.trans hx')
              subst hcls
              have := hi4 hcf
              omega
        · simpa [anonymizeIp, hen, hv, hl] using h

theorem anonInv_apply (classify : String → IpClass) (st : AnonState)
    (op : AnonOp) (h : AnonInv st) : AnonInv (applyAnonOp classify st op) := by
  cases op with
  | username v => exact anonInv_username st v h
  | ip v => exact anonInv_ip classify st v h
  | session v => exact anonInv_session st v h

theorem anonInv_run (classify : String → IpClass) (ops : List AnonOp) :
    ∀ st : AnonState, AnonInv st → AnonInv (runAnonOps classify st ops) := by
  induction ops with
  | nil => exact fun st h => h
  | cons op ops ih => exact fun st h => ih _ (anonInv_apply classify st op h)

/-! ### Stability of the three aliasing functions -/

theorem anonymizeUsername_stable (st : AnonState) (v : String) :
    (anonymizeUsername (anonymizeUsername st v).2 v).1 =
      (anonymizeUsername st v).1 := by
  cases hen : st.enabled with
  | false => simp [anonymizeUsername, hen]
  | true =>
      by_cases hv : v = ""
      · simp [anonymizeUsername, hv]
      · rcases hl : st.usernameMap.lookup v with _ | a
        · have h2 := lookup_append_of_none v
            (renderCounter3 "User-" (st.userCounter + 1)) hl
          simp [anonymizeUsername, hen, hv, hl, h2]
        · simp [anonymizeUsername, hen, hv, hl]

theorem anonymizeSession_stable (st : AnonState) (v : String) :
    (anonymizeSession (anonymizeSession st v).2 v).1 =
      (anonymizeSession st v).1 := by
  cases hen : st.enabled with
  | false => simp [anonymizeSession, hen]
  | true =>
      by_cases hv : v = ""
      · simp [anonymizeSession, hv]
      · rcases hl : st.sessionMap.lookup v with _ | a
        · have h2 := lookup_append_of_none v
            (renderCounter3 "Session-" (st.sessionCounter + 1)) hl
          simp [anonymizeSession, hen, hv, hl, h2]
        · simp [anonymizeSession, hen, hv, hl]

theorem anonymizeIp_stable (classify : String → IpClass) (st : AnonState)
    (v : String) :
    (anonymizeIp classify (anonymizeIp classify st v).2 v).1 =
      (anonymizeIp classify st v).1 := by
  cases hen : st.enabled with
  | false => simp [anonymizeIp, hen]
  | true =>
      by_cases hv : v = ""
      · simp [anonymizeIp, hv]
      · rcases hl : st.ipMap.lookup v with _ | a
        · by_cases hc : ipClassUsesCounter (classify v) = true
          · have h2 := lookup_append_of_none v
              (ipAliasString (classify v) (st.ipCounter + 1)) hl
            simp [anonymizeIp, hen, hv, hl, hc, h2]
          · have hcf : ipClassUsesCounter (classify v) = false :=
              Bool.eq_false_iff.mpr hc
            have h2 := lookup_append_of_none v
              (ipAliasString (classify v) (st.ipMap.length + 1)) hl
            simp [anonymizeIp, hen, hv, hl, hcf, h2]
        · simp [anonymizeIp, hen, hv, hl]

/-! ### Allocation-algorithm helper lemmas -/

theorem foldl_add_loopEstimate (l : List SessionData) :
    ∀ acc : ℚ, l.foldl (fun total s => total + loopSessionEstimate s) acc =
      acc + (l.map loopSessionEstimate).sum := by
  induction l with
  | nil => simp
  | cons s t ih =>
      intro acc
      simp [List.foldl_cons, ih, add_assoc]

theorem tier_filter_length (streamers : Streamers) :
    (streamers.filter fun p => isAdminStreamer p.2).length
      + (streamers.filter fun p =>
          !isAdminStreamer p.2 && isPremiumStreamer p.2).length
      + (streamers.filter fun p =>
          !isAdminStreamer p.2 && !isPremiumStreamer p.2).length
      = streamers.length := by
  induction streamers with
  | nil => simp
  | cons p t ih =>
      cases h1 : isAdminStreamer p.2 <;> cases h2 : isPremiumStreamer p.2 <;>
        simp [List.filter_cons, h1, h2] <;> omega

theorem tier_weight_sum (streamers : Streamers) :
    ((streamers.filter fun p => isAdminStreamer p.2).length : ℚ) * 3
      + ((streamers.filter fun p =>
          !isAdminStreamer p.2 && isPremiumStreamer p.2).length : ℚ) * 2
      + ((streamers.filter fun p =>
          !isAdminStreamer p.2 && !isPremiumStreamer p.2).length : ℚ) * 1
      = (streamers.map fun r => tierWeight r.2).sum := by
  induction streamers with
  | nil => simp
  | cons p t ih =>
      cases h1 : isAdminStreamer p.2 with
      | true =>
          have hw : tierWeight p.2 = 3 := by simp [tierWeight, h1]
          simp [List.filter_cons, h1, hw, ← ih]
          ring
      | false =>
          cases h2 : isPremiumStreamer p.2 with
          | true =>
              have hw : tierWeight p.2 = 2 := by simp [tierWeight, h1, h2]
              simp [List.filter_cons, h1, h2, hw, ← ih]
              ring
          | false =>
              have hw : tierWeight p.2 = 1 := by simp [tierWeight, h1, h2]
              simp [List.filter_cons, h1, h2, hw, ← ih]
              ring

theorem tierWeight_ge_one (st : Streamer) : 1 ≤ tierWeight st := by
  unfold tierWeight
  split
  · norm_num
  · split <;> norm_num

theorem tier_weight_sum_pos (streamers : Streamers) (hne : streamers ≠ []) :
    0 < (streamers.map fun r => tierWeight r.2).sum := by
  cases streamers with
  | nil => exact absurd rfl hne
  | cons p t =>
      have h1 : 1 ≤ tierWeight p.2 := tierWeight_ge_one p.2
      have h2 : 0 ≤ (t.map fun r => tierWeight r.2).sum :=
        List.sum_nonneg fun x hx => by
          obtain ⟨r, _, rfl⟩ := List.mem_map.mp hx
          linarith [tierWeight_ge_one r.2]
      simp only [List.map_cons, List.sum_cons]
      linarith

/-- Normal form of `PriorityBasedAlgorithm.calculate_limits` on a
non-empty input with positive budget: the three tier blocks in order,
with the per-unit bandwidth expressed through the summed tier weights. -/
theorem priority_result_eq (streamers : Streamers) (availableBandwidth : ℚ)
    (config : BandwidthConfig) (hne : streamers ≠ [])
    (hpos : 0 < availableBandwidth) :
    priorityBasedCalculateLimits streamers availableBandwidth config =
      ((streamers.filter fun p => isAdminStreamer p.2).map fun p =>
        (p.1, clampLimit config
          (availableBandwidth / (streamers.map fun r => tierWeight r.2).sum * 3)))
      ++ ((streamers.filter fun p =>
            !isAdminStreamer p.2 && isPremiumStreamer p.2).map fun p =>
        (p.1, clampLimit config
          (availableBandwidth / (streamers.map fun r => tierWeight r.2).sum * 2)))
      ++ ((streamers.filter fun p =>
            !isAdminStreamer p.2 && !isPremiumStreamer p.2).map fun p =>
        (p.1, clampLimit config
          (availableBandwidth / (streamers.map fun r => tierWeight r.2).sum * 1))) := by
  have hsum := tier_weight_sum streamers
  have hposw := tier_weight_sum_pos streamers hne
  simp only [priorityBasedCalculateLimits]
  rw [if_neg (by simp [List.isEmpty_iff, hne, hpos.not_le]), hsum,
    if_neg (ne_of_gt hposw)]

theorem findVideoStream_nil : findVideoStream [] = none := rfl

/-! ## Claim theorems -/

/-- **C1** (counterexample).  The claim says the control loop's
aggregate usage equals the sum of the section 4.2 estimator over all
sessions.  A session whose `TranscodingInfo` is non-empty but reports
no positive bitrate contributes 0 to `get_current_bandwidth_usage` but
5.0 Mbps to `_estimate_required_bandwidth`, so the two sums differ. -/
theorem loop_usage_ne_estimator_sum :
    getCurrentBandwidthUsage [stalledTranscodeSession] = 0 ∧
    ([stalledTranscodeSession].map estimateRequiredBandwidth).sum = 5 ∧
    getCurrentBandwidthUsage [stalledTranscodeSession] ≠
      ([stalledTranscodeSession].map estimateRequiredBandwidth).sum := by
  refine ⟨?_, ?_, ?_⟩ <;>
    norm_num [getCurrentBandwidthUsage, loopSessionEstimate,
      estimateRequiredBandwidth, estimateFromMedia, findVideoStream_nil,
      stalledTranscodeSession]

/-- **C1** (amended).  The aggregate computed by
`JellyDemon.get_current_bandwidth_usage` equals the sum, over all
active sessions, of the loop's own per-session estimate
(`loopSessionEstimate`): the transcode bitrate when positive, zero
when transcoding info is present without a positive bitrate, and
otherwise the declared item bitrate with a 5 Mbps default — not the
section 4.2 estimator, from which it differs. -/
theorem loop_usage_eq_sum_loop_estimate (sessions : List SessionData) :
    getCurrentBandwidthUsage sessions =
      (sessions.map loopSessionEstimate).sum := by
  unfold getCurrentBandwidthUsage
  simpa using foldl_add_loopEstimate sessions 0

/-- **C2** (counterexample).  On a malformed IP string
`is_external_ip` returns `False`, but it does not signal any
`ClassificationError` to the caller: the `ValueError` is handled
locally and the call returns normally (no such exception class exists
in the code). -/
theorem malformed_ip_no_classification_error :
    isExternalIp true [] [] (none : Option Unit) = Except.ok false ∧
    ∀ e : String,
      isExternalIp true [] [] (none : Option Unit) ≠ Except.error e :=
  ⟨rfl, fun _ h => Except.noConfusion h⟩

/-- **C2** (amended).  For every malformed (unparseable) IP string,
`is_external_ip` returns `False` (fail-safe) and never raises: the
parse error is logged locally, and no exception — in particular no
`ClassificationError` — reaches the caller. -/
theorem malformed_ip_fail_safe {α : Type} (testMode : Bool)
    (testNets internalNets : List (α → Bool)) :
    isExternalIp testMode testNets internalNets none = Except.ok false ∧
    ∀ e : String,
      isExternalIp testMode testNets internalNets none ≠ Except.error e :=
  ⟨rfl, fun _ h => Except.noConfusion h⟩

/-- **C5** (counterexample).  The claim quantifies over every
`available ≥ 0`, but at `available = 0` (one streamer, bounds [2, 50])
`EqualSplitAlgorithm.calculate_limits` returns the empty mapping, so
the single user is not assigned `clamp(0/1) = 2`. -/
theorem equal_split_zero_budget_empty :
    equalSplitCalculateLimits [("u", sampleStreamer)] 0 ⟨100, 10, 2, 50⟩
        = [] ∧
    ("u", (2 : ℚ)) ∉
      equalSplitCalculateLimits [("u", sampleStreamer)] 0 ⟨100, 10, 2, 50⟩ := by
  constructor
  · simp [equalSplitCalculateLimits]
  · simp [equalSplitCalculateLimits]

/-- **C5** (amended).  For every streamers map with N ≥ 1 entries and
every available bandwidth `> 0` (at exactly 0 the algorithm returns
the empty mapping), every one of the N users is assigned exactly
`clamp(available/N, min_per_user, max_per_user)`, so all N assigned
values are equal. -/
theorem equal_split_assigns_clamped_share (streamers : Streamers)
    (availableBandwidth : ℚ) (config : BandwidthConfig)
    (hne : streamers ≠ []) (hpos : 0 < availableBandwidth) :
    equalSplitCalculateLimits streamers availableBandwidth config =
      streamers.map fun p =>
        (p.1, min config.maxPerUser
          (max config.minPerUser
            (availableBandwidth / (streamers.length : ℚ)))) := by
  unfold equalSplitCalculateLimits
  rw [if_neg (by simp [List.isEmpty_iff, hne, hpos.not_le])]

/-- Witness for the amended C5 at a concrete input: two users,
30 Mbps, bounds [2, 50] — both get 15. -/
theorem equal_split_assigns_clamped_share_witness :
    equalSplitCalculateLimits
      [("a", sampleStreamer), ("b", sampleStreamer)] 30 ⟨100, 10, 2, 50⟩ =
      [("a", 15), ("b", 15)] := by
  rw [equal_split_assigns_clamped_share
    [("a", sampleStreamer), ("b", sampleStreamer)] 30 ⟨100, 10, 2, 50⟩
    (by simp) (by norm_num)]
  norm_num

/-- **C6**.  For a well-formed IP: in test mode with a non-empty
test-range list the verdict is membership in some test range (internal
ranges ignored, non-matching IPs treated as internal); otherwise the
verdict is membership in none of the internal ranges. -/
theorem wellformed_ip_classification {α : Type} (testMode : Bool)
    (testNets internalNets : List (α → Bool)) (ip : α) :
    (testMode = true ∧ testNets ≠ [] →
      isExternalIp testMode testNets internalNets (some ip) =
        Except.ok (testNets.any fun net => net ip)) ∧
    (testMode = false ∨ testNets = [] →
      isExternalIp testMode testNets internalNets (some ip) =
        Except.ok (!(internalNets.any fun net => net ip))) := by
  constructor
  · rintro ⟨rfl, hne⟩
    simp [isExternalIp, isExternalIpCore, List.isEmpty_iff, hne]
  · rintro (rfl | rfl)
    · simp [isExternalIp, isExternalIpCore]
    · simp [isExternalIp, isExternalIpCore]

/-- Witness for C6 at concrete inputs: in test mode, `8` matches the
test range and is external; in normal mode, `8` matches no internal
range and is external. -/
theorem wellformed_ip_classification_witness :
    isExternalIp true [fun x => decide (x = 8)] ([] : List (ℕ → Bool))
        (some 8) = Except.ok true ∧
    isExternalIp false ([] : List (ℕ → Bool)) [fun x => decide (x = 7)]
        (some 8) = Except.ok true := by
  constructor
  · have h := (wellformed_ip_classification true [fun x => decide (x = 8)]
      [] 8).1 ⟨rfl, by simp⟩
    rw [h]
    norm_num
  · have h := (wellformed_ip_classification false []
      [fun x => decide (x = 7)] 8).2 (Or.inl rfl)
    rw [h]
    norm_num

/-- **C7**.  When `total - usage - reserved` is strictly negative, the
budget passed on is replaced by `min_per_user × external_count`, the
strategy is invoked with that fallback value (the manager gate passes
since `min_per_user × N ≥ min_per_user` for N ≥ 1), and a negative
budget is never passed into a strategy. -/
theorem budget_fallback_floor_allocation
    (strategy : Streamers → ℚ → BandwidthConfig → List (String × ℚ))
    (config : BandwidthConfig) (streamers : Streamers) (currentUsage : ℚ)
    (hne : streamers ≠ [])
    (hmin : 0 ≤ config.minPerUser)
    (hneg : config.totalUploadMbps - currentUsage
      - config.reservedBandwidth < 0) :
    controlLoopAvailable config currentUsage streamers.length =
      config.minPerUser * (streamers.length : ℚ) ∧
    calculateAndApplyLimits strategy config streamers currentUsage =
      strategy streamers
        (config.minPerUser * (streamers.length : ℚ)) config ∧
    ∀ usage : ℚ, 0 ≤ controlLoopAvailable config usage streamers.length := by
  have hlen : (1 : ℚ) ≤ (streamers.length : ℚ) := by
    exact_mod_cast List.length_pos.mpr hne
  have havail : controlLoopAvailable config currentUsage streamers.length =
      config.minPerUser * (streamers.length : ℚ) := by
    unfold controlLoopAvailable
    rw [if_pos hneg]
  refine ⟨havail, ?_, ?_⟩
  · unfold calculateAndApplyLimits
    rw [if_neg (by simp [List.isEmpty_iff, hne]), havail]
    unfold managerCalculateLimits
    rw [if_neg]
    push_neg
    nlinarith
  · intro usage
    show 0 ≤ if config.totalUploadMbps - usage - config.reservedBandwidth < 0
      then config.minPerUser * (streamers.length : ℚ)
      else config.totalUploadMbps - usage - config.reservedBandwidth
    split
    · positivity
    · linarith [not_lt.mp (by assumption :
        ¬config.totalUploadMbps - usage - config.reservedBandwidth < 0)]

/-- Witness for C7 at the claim's concrete input: total=100,
reserved=10, usage=95, 2 external users, min=2 — the fallback budget
is 4 and the strategy is invoked with 4. -/
theorem budget_fallback_floor_allocation_witness :
    controlLoopAvailable ⟨100, 10, 2, 50⟩ 95 2 = 4 ∧
    calculateAndApplyLimits equalSplitCalculateLimits ⟨100, 10, 2, 50⟩
        [("a", sampleStreamer), ("b", sampleStreamer)] 95 =
      equalSplitCalculateLimits
        [("a", sampleStreamer), ("b", sampleStreamer)] 4 ⟨100, 10, 2, 50⟩ := by
  have h := budget_fallback_floor_allocation equalSplitCalculateLimits
    ⟨100, 10, 2, 50⟩ [("a", sampleStreamer), ("b", sampleStreamer)] 95
    (by simp) (by norm_num) (by norm_num)
  constructor
  · have := h.1
    norm_num at this ⊢
    exact this
  · have := h.2.1
    norm_num at this ⊢
    exact this

/-- **C4**.  `DemandBasedAlgorithm.calculate_limits` computes each
user's demand with the section 4.2 estimator; within budget every user
receives `clamp(demand)`, over budget every user receives
`clamp(demand × (available / total demand))`. -/
theorem demand_based_spec (streamers : Streamers) (availableBandwidth : ℚ)
    (config : BandwidthConfig) (hne : streamers ≠ [])
    (hpos : 0 < availableBandwidth) :
    demandBasedCalculateLimits streamers availableBandwidth config =
      streamers.map fun p =>
        (p.1, clampLimit config
          (if (streamers.map fun r =>
                estimateRequiredBandwidth r.2.sessionData).sum
              ≤ availableBandwidth
           then estimateRequiredBandwidth p.2.sessionData
           else estimateRequiredBandwidth p.2.sessionData *
             (availableBandwidth /
               (streamers.map fun r =>
                 estimateRequiredBandwidth r.2.sessionData).sum))) := by
  have hmap : ((streamers.map fun p =>
      (p.1, estimateRequiredBandwidth p.2.sessionData)).map Prod.snd)
      = streamers.map fun r => estimateRequiredBandwidth r.2.sessionData := by
    rw [List.map_map]
    rfl
  simp only [demandBasedCalculateLimits]
  rw [if_neg (by simp [List.isEmpty_iff, hne, hpos.not_le]), hmap]
  by_cases hd : (streamers.map fun r =>
      estimateRequiredBandwidth r.2.sessionData).sum ≤ availableBandwidth
  · rw [if_pos hd]
    simp only [if_pos hd, List.map_map]
    rfl
  · rw [if_neg hd]
    simp only [if_neg hd, List.map_map]
    rfl

/-- Witness for C4 at the claim's concrete input: demands
{A:20, B:20}, available 30, bounds [2, 50] — both get 15. -/
theorem demand_based_spec_witness :
    demandBasedCalculateLimits
      [("A", transcode20Streamer), ("B", transcode20Streamer)] 30
      ⟨100, 10, 2, 50⟩ = [("A", 15), ("B", 15)] := by
  rw [demand_based_spec _ _ _ (by simp) (by norm_num)]
  norm_num [estimateRequiredBandwidth, transcode20Streamer, clampLimit,
    max_def, min_def]

/-- **C8**.  Under `min_per_user < max_per_user`, every entry returned
by any of the three strategies lies within
`[min_per_user, max_per_user]`. -/
theorem limits_within_bounds (config : BandwidthConfig)
    (hminmax : config.minPerUser < config.maxPerUser)
    (streamers : Streamers) (availableBandwidth : ℚ) :
    (∀ q ∈ equalSplitCalculateLimits streamers availableBandwidth config,
      config.minPerUser ≤ q.2 ∧ q.2 ≤ config.maxPerUser) ∧
    (∀ q ∈ priorityBasedCalculateLimits streamers availableBandwidth config,
      config.minPerUser ≤ q.2 ∧ q.2 ≤ config.maxPerUser) ∧
    (∀ q ∈ demandBasedCalculateLimits streamers availableBandwidth config,
      config.minPerUser ≤ q.2 ∧ q.2 ≤ config.maxPerUser) := by
  have hle := le_of_lt hminmax
  refine ⟨?_, ?_, ?_⟩
  · intro q hq
    simp only [equalSplitCalculateLimits] at hq
    split at hq
    · simp at hq
    · obtain ⟨p, hp, rfl⟩ := List.mem_map.mp hq
      exact ⟨le_min hle (le_max_left _ _), min_le_left _ _⟩
  · intro q hq
    simp only [priorityBasedCalculateLimits] at hq
    split at hq
    · simp at hq
    · split at hq
      · simp at hq
      · rcases List.mem_append.mp hq with h | h
        · rcases List.mem_append.mp h with h' | h'
          · obtain ⟨p, hp, rfl⟩ := List.mem_map.mp h'
            exact ⟨le_max_left _ _, max_le hle (min_le_left _ _)⟩
          · obtain ⟨p, hp, rfl⟩ := List.mem_map.mp h'
            exact ⟨le_max_left _ _, max_le hle (min_le_left _ _)⟩
        · obtain ⟨p, hp, rfl⟩ := List.mem_map.mp h
          exact ⟨le_max_left _ _, max_le hle (min_le_left _ _)⟩
  · intro q hq
    simp only [demandBasedCalculateLimits] at hq
    split at hq
    · simp at hq
    · split at hq
      · obtain ⟨p, hp, rfl⟩ := List.mem_map.mp hq
        exact ⟨le_max_left _ _, max_le hle (min_le_left _ _)⟩
      · obtain ⟨p, hp, rfl⟩ := List.mem_map.mp hq
        exact ⟨le_max_left _ _, max_le hle (min_le_left _ _)⟩

/-- Witness for C8: with bounds [2, 50], the entry assigned 15 by
EqualSplit to one of two users lies within the bounds. -/
theorem limits_within_bounds_witness :
    ("a", (15 : ℚ)) ∈ equalSplitCalculateLimits
        [("a", sampleStreamer), ("b", sampleStreamer)] 30 ⟨100, 10, 2, 50⟩ ∧
    (2 : ℚ) ≤ 15 ∧ (15 : ℚ) ≤ 50 := by
  have h := limits_within_bounds ⟨100, 10, 2, 50⟩ (by norm_num)
    [("a", sampleStreamer), ("b", sampleStreamer)] 30
  have hmem : ("a", (15 : ℚ)) ∈ equalSplitCalculateLimits
      [("a", sampleStreamer), ("b", sampleStreamer)] 30 ⟨100, 10, 2, 50⟩ := by
    norm_num [equalSplitCalculateLimits, max_def, min_def]
  exact ⟨hmem, h.1 _ hmem⟩

/-- **C10**.  For `0 ≤ available < min_per_user`,
`BandwidthManager.calculate_limits` returns the empty mapping without
invoking the configured strategy (for every strategy the result is the
same empty mapping), a stricter gate than the strategies' own
contract: on a non-empty streamers map with positive budget each of
the three strategies returns a non-empty mapping. -/
theorem manager_gate_and_strategy_contract (config : BandwidthConfig)
    (streamers : Streamers) (availableBandwidth : ℚ)
    (_h0 : 0 ≤ availableBandwidth)
    (h1 : availableBandwidth < config.minPerUser) :
    (∀ strategy, managerCalculateLimits strategy config streamers
      availableBandwidth = []) ∧
    (streamers ≠ [] → 0 < availableBandwidth →
      equalSplitCalculateLimits streamers availableBandwidth config ≠ [] ∧
      priorityBasedCalculateLimits streamers availableBandwidth config ≠ [] ∧
      demandBasedCalculateLimits streamers availableBandwidth config ≠ []) := by
  constructor
  · intro strategy
    unfold managerCalculateLimits
    rw [if_pos h1]
  · intro hne hpos
    refine ⟨?_, ?_, ?_⟩
    · simp only [equalSplitCalculateLimits]
      rw [if_neg (by simp [List.isEmpty_iff, hne, hpos.not_le])]
      simp [hne]
    · rw [priority_result_eq streamers availableBandwidth config hne hpos]
      intro hcontra
      have hzero := congrArg List.length hcontra
      simp only [List.length_append, List.length_map,
        List.length_nil] at hzero
      have hlen := tier_filter_length streamers
      have hpos' : 0 < streamers.length := List.length_pos.mpr hne
      omega
    · simp only [demandBasedCalculateLimits]
      rw [if_neg (by simp [List.isEmpty_iff, hne, hpos.not_le])]
      split <;> simp [hne]

/-- Witness for C10: with bounds [2, 50] and available 1 < 2 = min,
the manager returns the empty mapping although EqualSplit itself would
return a non-empty one. -/
theorem manager_gate_witness :
    managerCalculateLimits equalSplitCalculateLimits ⟨100, 10, 2, 50⟩
        [("a", sampleStreamer)] 1 = [] ∧
    equalSplitCalculateLimits [("a", sampleStreamer)] 1 ⟨100, 10, 2, 50⟩
      ≠ [] := by
  have h := manager_gate_and_strategy_contract ⟨100, 10, 2, 50⟩
    [("a", sampleStreamer)] 1 (by norm_num) (by norm_num)
  exact ⟨h.1 _, (h.2 (by simp) (by norm_num)).1⟩

/-- **C3**.  `PriorityBasedAlgorithm.calculate_limits` partitions
users in order (admin 3, else premium 2, else regular 1), computes
`total_weight` as the weighted tier count — equal to the sum of the
per-user tier weights — takes `unit = available / total_weight`, and
assigns each user `clamp(unit × tier weight)`; every output entry
arises this way and the output has one entry per user. -/
theorem priority_based_spec (streamers : Streamers)
    (availableBandwidth : ℚ) (config : BandwidthConfig)
    (hne : streamers ≠ []) (hpos : 0 < availableBandwidth) :
    (∀ p ∈ streamers,
      (p.1, clampLimit config
        (availableBandwidth / (streamers.map fun r => tierWeight r.2).sum
          * tierWeight p.2)) ∈
        priorityBasedCalculateLimits streamers availableBandwidth config) ∧
    (∀ q ∈ priorityBasedCalculateLimits streamers availableBandwidth config,
      ∃ p ∈ streamers, q = (p.1, clampLimit config
        (availableBandwidth / (streamers.map fun r => tierWeight r.2).sum
          * tierWeight p.2))) ∧
    (priorityBasedCalculateLimits streamers availableBandwidth
      config).length = streamers.length := by
  rw [priority_result_eq streamers availableBandwidth config hne hpos]
  refine ⟨?_, ?_, ?_⟩
  · intro p hp
    by_cases h1 : isAdminStreamer p.2 = true
    · have hw : tierWeight p.2 = 3 := by simp [tierWeight, h1]
      rw [hw]
      exact List.mem_append_left _ (List.mem_append_left _
        (List.mem_map_of_mem _ (List.mem_filter.mpr ⟨hp, h1⟩)))
    · by_cases h2 : isPremiumStreamer p.2 = true
      · have hw : tierWeight p.2 = 2 := by simp [tierWeight, h1, h2]
        rw [hw]
        exact List.mem_append_left _ (List.mem_append_right _
          (List.mem_map_of_mem _ (List.mem_filter.mpr ⟨hp, by simp [h1, h2]⟩)))
      · have hw : tierWeight p.2 = 1 := by simp [tierWeight, h1, h2]
        rw [hw]
        exact List.mem_append_right _
          (List.mem_map_of_mem _ (List.mem_filter.mpr ⟨hp, by simp [h1, h2]⟩))
  · intro q hq
    rcases List.mem_append.mp hq with h | h
    · rcases List.mem_append.mp h with h' | h'
      · obtain ⟨p, hpf, rfl⟩ := List.mem_map.mp h'
        obtain ⟨hp, hpred⟩ := List.mem_filter.mp hpf
        have hw : tierWeight p.2 = 3 := by simp [tierWeight, hpred]
        exact ⟨p, hp, by rw [hw]⟩
      · obtain ⟨p, hpf, rfl⟩ := List.mem_map.mp h'
        obtain ⟨hp, hpred⟩ := List.mem_filter.mp hpf
        simp only [Bool.and_eq_true, Bool.not_eq_true'] at hpred
        have hw : tierWeight p.2 = 2 := by
          simp [tierWeight, hpred.1, hpred.2]
        exact ⟨p, hp, by rw [hw]⟩
    · obtain ⟨p, hpf, rfl⟩ := List.mem_map.mp h
      obtain ⟨hp, hpred⟩ := List.mem_filter.mp hpf
      simp only [Bool.and_eq_true, Bool.not_eq_true'] at hpred
      have hw : tierWeight p.2 = 1 := by
        simp [tierWeight, hpred.1, hpred.2]
      exact ⟨p, hp, by rw [hw]⟩
  · simp only [List.length_append, List.length_map]
    exact tier_filter_length streamers

/-- Witness for C3 at the claim's concrete input: 1 admin + 1 regular,
available 30, bounds [2, 50] — the admin receives 22.5 and the regular
user 7.5. -/
theorem priority_based_spec_witness :
    ("admin", (45 / 2 : ℚ)) ∈ priorityBasedCalculateLimits
      [("admin", adminStreamer), ("reg", sampleStreamer)] 30
      ⟨100, 10, 2, 50⟩ ∧
    ("reg", (15 / 2 : ℚ)) ∈ priorityBasedCalculateLimits
      [("admin", adminStreamer), ("reg", sampleStreamer)] 30
      ⟨100, 10, 2, 50⟩ := by
  have h := (priority_based_spec
    [("admin", adminStreamer), ("reg", sampleStreamer)] 30
    ⟨100, 10, 2, 50⟩ (by simp) (by norm_num)).1
  constructor
  · have hm := h ("admin", adminStreamer) (by simp)
    norm_num [tierWeight, isAdminStreamer, isPremiumStreamer, adminStreamer,
      sampleStreamer, clampLimit, max_def, min_def] at hm
    convert hm using 2
  · have hm := h ("reg", sampleStreamer) (by simp)
    norm_num [tierWeight, isAdminStreamer, isPremiumStreamer, adminStreamer,
      sampleStreamer, clampLimit, max_def, min_def] at hm
    convert hm using 2

/-- **C9**.  For each of the three alias maps of `LogAnonymizer` with
anonymization enabled: aliasing the same non-empty value twice returns
the same alias both times; after any sequence of calls starting from
the fresh enabled state, two distinct originals stored in the same map
never share an alias; and with anonymization disabled each aliasing
function is the identity and leaves the state (hence the maps)
unchanged. -/
theorem anonymizer_alias_properties :
    (∀ (st : AnonState) (v : String) (classify : String → IpClass),
      st.enabled = true → v ≠ "" →
      (anonymizeUsername (anonymizeUsername st v).2 v).1 =
        (anonymizeUsername st v).1 ∧
      (anonymizeIp classify (anonymizeIp classify st v).2 v).1 =
        (anonymizeIp classify st v).1 ∧
      (anonymizeSession (anonymizeSession st v).2 v).1 =
        (anonymizeSession st v).1) ∧
    (∀ (classify : String → IpClass) (ops : List AnonOp),
      (∀ q1 ∈ (runAnonOps classify (initAnonState true) ops).usernameMap,
       ∀ q2 ∈ (runAnonOps classify (initAnonState true) ops).usernameMap,
        q1.1 ≠ q2.1 → q1.2 ≠ q2.2) ∧
      (∀ q1 ∈ (runAnonOps classify (initAnonState true) ops).ipMap,
       ∀ q2 ∈ (runAnonOps classify (initAnonState true) ops).ipMap,
        q1.1 ≠ q2.1 → q1.2 ≠ q2.2) ∧
      (∀ q1 ∈ (runAnonOps classify (initAnonState true) ops).sessionMap,
       ∀ q2 ∈ (runAnonOps classify (initAnonState true) ops).sessionMap,
        q1.1 ≠ q2.1 → q1.2 ≠ q2.2)) ∧
    (∀ (st : AnonState) (v : String) (classify : String → IpClass),
      st.enabled = false →
      anonymizeUsername st v = (v, st) ∧
      anonymizeIp classify st v = (v, st) ∧
      anonymizeSession st v = (v, st)) := by
  refine ⟨?_, ?_, ?_⟩
  · intro st v classify _ _
    exact ⟨anonymizeUsername_stable st v, anonymizeIp_stable classify st v,
      anonymizeSession_stable st v⟩
  · intro classify ops
    have hinv := anonInv_run classify ops (initAnonState true)
      (anonInv_init true)
    refine ⟨?_, ?_, ?_⟩
    · intro q1 h1 q2 h2 hkeys heq
      exact hkeys (congrArg Prod.fst
        (map_snd_nodup_inj hinv.userNodup q1 h1 q2 h2 heq))
    · intro q1 h1 q2 h2 hkeys heq
      exact hkeys (congrArg Prod.fst
        (map_snd_nodup_inj hinv.ipNodup q1 h1 q2 h2 heq))
    · intro q1 h1 q2 h2 hkeys heq
      exact hkeys (congrArg Prod.fst
        (map_snd_nodup_inj hinv.sessionNodup q1 h1 q2 h2 heq))
  · intro st v classify h
    refine ⟨?_, ?_, ?_⟩
    · simp [anonymizeUsername, h]
    · simp [anonymizeIp, h]
    · simp [anonymizeSession, h]

/-- Witness for C9 at concrete inputs: aliasing `"alice"` twice from
the fresh enabled state returns the same alias both times, and with
anonymization disabled the username aliasing is the identity. -/
theorem anonymizer_alias_properties_witness :
    (anonymizeUsername (anonymizeUsername (initAnonState true) "alice").2
        "alice").1 = (anonymizeUsername (initAnonState true) "alice").1 ∧
    anonymizeUsername (initAnonState false) "alice" =
      ("alice", initAnonState false) := by
  have h1 := (anonymizer_alias_properties.1 (initAnonState true) "alice"
    (fun _ => IpClass.invalid) rfl (by decide)).1
  have h2 := (anonymizer_alias_properties.2.2 (initAnonState false) "alice"
    (fun _ => IpClass.invalid) rfl).1
  exact ⟨h1, h2⟩

end JellyDemon
